import Mathlib

/-!
Verification of the agent-install core of `engine/install.go`
(techknowlogick/autoscaler).

The Go code is embedded shallowly:

* `Server`, the lifecycle states and the installer configuration are modelled
  from the spec (the `autoscaler` and `config` packages are not part of the
  sources; only `engine/install.go` is).
* Effects (the server store, the docker client, the context) are modelled by
  explicit oracles (`DockerEnv`, update functions) and the functions return
  the list of store writes they perform.
* The unbounded connectivity poll loop is modelled with explicit fuel; claims
  about non-termination quantify over all fuel values.
* `toVol` / `splitVolumeParts` are embedded including the behaviour of the
  constant regular expression `^((?:[\w]\:)?[^\:]*)\:((?:[\w]\:)?[^\:]*)(?:\:([rwom]*))?`
  under Go's leftmost-first (Perl-style backtracking) match semantics.
-/

/-- Modelled from the spec: the server lifecycle states `created`, `staging`,
`running`, `error` (`autoscaler.StateCreated` etc.; the `autoscaler` package is
not under the sources). -/
inductive SState where
  | created
  | staging
  | running
  | error
deriving DecidableEq, Repr

/-- Modelled from the spec: the server record (`autoscaler.Server`, not under
the sources): identifier, name, network address, region, size, capacity,
current lifecycle state, last error message (empty string for "none"). -/
structure Server where
  id : String
  name : String
  address : String
  region : String
  size : String
  capacity : Int
  state : SState
  error : String
deriving DecidableEq, Repr

/-- Modelled from the spec: the runner sub-configuration (`config.Runner`, not
under the sources): extra volumes, devices, privileged-image allowlist. -/
structure RunnerCfg where
  volumes : String
  devices : String
  privileged : String
deriving DecidableEq, Repr

/-- The fields of the `installer` struct that form the agent install
configuration (`engine/install.go` lines 25-39); durations are nanoseconds as
in Go's `time.Duration`. -/
structure InstallerCfg where
  image : String
  secret : String
  volumes : List String
  host : String
  proto : String
  keepaliveTime : Nat
  keepaliveTimeout : Nat
  runner : RunnerCfg
deriving DecidableEq, Repr

/-! ## Volume-spec parser (`toVol`, `splitVolumeParts`) -/

/-- Go `regexp`'s `\w`: ASCII `[0-9A-Za-z_]`. -/
def isWordChar (c : Char) : Bool :=
  c.isAlphanum || c = '_'

/-- A character other than the separator `':'`, i.e. Go's `[^\:]`. -/
def nonColon (c : Char) : Bool :=
  c != ':'

/-- Go `strings.Split(s, ":")` over the character list: split on every colon;
the empty string yields one empty field. -/
def splitColons : List Char → List (List Char)
  | [] => [[]]
  | c :: rest =>
    let r := splitColons rest
    if c = ':' then [] :: r
    else
      match r with
      | [] => [[c]]
      | h :: t => (c :: h) :: t

/-- First capture group of the constant pattern, `((?:[\w]\:)?[^\:]*)`, followed by
the mandatory literal `\:`, matched at the start of the input with Go's
leftmost-first semantics: the greedy optional drive prefix `[\w]\:` is tried
first; `[^\:]*` then takes the maximal colon-free run, and the literal colon
must follow (shorter runs always fail, since every skipped character is not a
colon). If the drive-prefix alternative cannot complete, the engine backtracks
to the prefix-less alternative. Returns the group and the input after the
separating colon, or `none` when the whole pattern cannot match.
-/
def matchGroup1 (cs : List Char) : Option (List Char × List Char) :=
  let fallback : Option (List Char × List Char) :=
    let run := cs.takeWhile nonColon
    match cs.dropWhile nonColon with
    | ':' :: rest => some (run, rest)
    | _ => none
  match cs with
  | c1 :: ':' :: rest =>
    if isWordChar c1 then
      let run := rest.takeWhile nonColon
      match rest.dropWhile nonColon with
      | ':' :: rest2 => some (c1 :: ':' :: run, rest2)
      | _ => fallback
    else fallback
  | _ => fallback

/-- Second capture group, `((?:[\w]\:)?[^\:]*)`: nothing mandatory follows it (the
mode group is optional and the pattern is unanchored at the end), so the greedy
choices succeed without backtracking: take the drive prefix when its two
characters are present, then the maximal colon-free run. Returns the group and
the remaining input.
-/
def matchGroup2 (cs : List Char) : List Char × List Char :=
  match cs with
  | c1 :: ':' :: rest =>
    if isWordChar c1 then
      (c1 :: ':' :: rest.takeWhile nonColon, rest.dropWhile nonColon)
    else (cs.takeWhile nonColon, cs.dropWhile nonColon)
  | _ => (cs.takeWhile nonColon, cs.dropWhile nonColon)

/-- Go `[rwom]` character class. -/
def isModeChar (c : Char) : Bool :=
  c = 'r' || c = 'w' || c = 'o' || c = 'm'

/-- Third capture group, `(?:\:([rwom]*))?`: taken (greedily) exactly when a
colon follows; an unmatched group surfaces as `""` in `FindStringSubmatch`,
indistinguishable from a matched-empty group for the caller. -/
def matchMode (cs : List Char) : List Char :=
  match cs with
  | ':' :: rest => rest.takeWhile isModeChar
  | _ => []

/-- `splitVolumeParts` (`engine/install.go` lines 221-239). The function
compiles the constant pattern and returns its error on compilation failure;
that branch is unreachable because the pattern is a fixed well-formed regular
expression, so every reachable return carries a nil error, modelled as
`Except.ok`. On a match it returns the three capture groups with empty strings
removed; otherwise it falls back to a naive colon split. -/
def splitVolumeParts (volumeParts : String) : Except String (List String) :=
  let cs := volumeParts.data
  match matchGroup1 cs with
  | some (g1, rest) =>
    let p2 := matchGroup2 rest
    let g3 := matchMode p2.2
    Except.ok ((([g1, p2.1, g3]).map fun l => String.mk l).filter fun s => s ≠ "")
  | none => Except.ok ((splitColons cs).map fun l => String.mk l)

/-- `toVol` (`engine/install.go` lines 205-218): builds the set of unique
volume target names. The Go `map[string]struct{}` is modelled as the
insertion-ordered list of its keys: an entry already present is not added
again. Entries whose split errors or yields fewer than two non-empty
components are skipped. -/
def toVol (paths : List String) : List String :=
  paths.foldl
    (fun set path =>
      match splitVolumeParts path with
      | Except.error _ => set
      | Except.ok parts =>
        if parts.length < 2 then set
        else
          let target := parts.getD 1 ""
          if target ∈ set then set else set ++ [target])
    []

/-! ## Connectivity probe loop (`engine/install.go` lines 87-114) -/

/-- Go `time.Minute` in nanoseconds (`time.Duration`). -/
def timeMinute : Nat := 60000000000

/-- Result of running the poll loop for a bounded number of iterations:
either the `select` took the `ctx.Done()` branch at iteration `i`, or the
`ContainerList` call of iteration `i` succeeded and the loop broke out, or the
given fuel was exhausted with the loop still running. -/
inductive ProbeResult where
  | canceled (i : Nat)
  | connected (i : Nat)
  | outOfFuel
deriving DecidableEq, Repr

/-- The `poller` loop. `c i` tells whether the `select` of iteration `i` takes the
`ctx.Done()` branch (the context is done); `a i` tells whether the
`ContainerList` call of iteration `i` succeeds. `interval` is the current
value of the `interval` variable (`0` on entry, `time.Minute` after the first
timer fires); the returned list collects the waits performed before each
attempt. The Go loop has no iteration bound, hence the explicit `fuel`.
-/
def probeLoop (c a : Nat → Bool) : Nat → Nat → Nat → List Nat × ProbeResult
  | 0, _, _ => ([], ProbeResult.outOfFuel)
  | fuel + 1, i, interval =>
    if c i then ([], ProbeResult.canceled i)
    else if a i then ([interval], ProbeResult.connected i)
    else
      let r := probeLoop c a fuel (i + 1) timeMinute
      (interval :: r.1, r.2)

/-! ## Per-server bootstrap (`installer.install`, lines 70-192) -/

/-- Oracle for the effects one bootstrap run observes: the docker-client
factory result, the context and `ContainerList` behaviour at each poll
iteration, the `ctx.Err()` text, and the results of `ImagePull`,
`ContainerCreate`, `ContainerStart` and the store's `Update`. -/
structure DockerEnv where
  clientErr : Option String
  ctxDone : Nat → Bool
  ctxErr : String
  attemptOk : Nat → Bool
  pullRes : Option String
  createRes : Except String String
  startErr : String → Option String
  updateErr : Server → Option String

/-- The bootstrap steps in source order: docker-client construction, the
connectivity poll, `ImagePull`, `ContainerCreate`, `ContainerStart`. -/
inductive BStep where
  | client
  | probe
  | pull
  | create
  | start
deriving DecidableEq, Repr

/-- What a bootstrap run returned: `running` marks a run still inside the
poll loop (fuel exhausted in the model, the loop still spinning in Go);
`returned e` is the function returning the Go error `e` (`none` = nil). -/
inductive Outcome where
  | running
  | returned (e : Option String)
deriving DecidableEq, Repr

/-- Observable trace of one `install` run: the bootstrap steps begun, the
server records passed to `servers.Update` in order, the installer's `volumes`
configuration after the run (line 134 reassigns it), and the returned error. -/
structure InstallRun where
  steps : List BStep
  writes : List Server
  cfgAfter : InstallerCfg
  outcome : Outcome
deriving Repr

/-- `installer.errorUpdate` (lines 194-201): on a non-nil error the server
record is set to the error state with the error's text, an `Update` is issued
and its result discarded; the given error is returned unchanged. On a nil
error nothing happens. Returns the (possibly updated) record, the `Update`
calls made, and the returned error. -/
def errorUpdate (upd : Server → Option String) (server : Server) (e : Option String) :
    Server × List Server × Option String :=
  match e with
  | none => (server, [], none)
  | some msg =>
    let s2 : Server := { server with state := SState.error, error := msg }
    let _ := upd s2
    (s2, [s2], some msg)

/-- The mandatory docker control-socket bind appended at line 134. -/
def dockerSockBind : String := "/var/run/docker.sock:/var/run/docker.sock"

/-- The function `installer.install` (lines 70-192): client construction, the connectivity
poll, image pull, `i.volumes = append(i.volumes, ...)` (line 134, a mutation
of the shared installer configuration), container create, container start,
and the final transition to `running`. Every failure is routed through
`errorUpdate`. The container-create payload (environment, labels,
`toVol i.volumes`, binds) is passed to the remote client and not otherwise
observed, so only the oracle's create result enters the trace.
-/
def install (env : DockerEnv) (fuel : Nat) (cfg : InstallerCfg) (inst : Server) : InstallRun :=
  match env.clientErr with
  | some e =>
    let r := errorUpdate env.updateErr inst (some e)
    ⟨[BStep.client], r.2.1, cfg, Outcome.returned r.2.2⟩
  | none =>
    match (probeLoop env.ctxDone env.attemptOk fuel 0 0).2 with
    | ProbeResult.outOfFuel => ⟨[BStep.client, BStep.probe], [], cfg, Outcome.running⟩
    | ProbeResult.canceled _ =>
      let r := errorUpdate env.updateErr inst (some env.ctxErr)
      ⟨[BStep.client, BStep.probe], r.2.1, cfg, Outcome.returned r.2.2⟩
    | ProbeResult.connected _ =>
      match env.pullRes with
      | some e =>
        let r := errorUpdate env.updateErr inst (some e)
        ⟨[BStep.client, BStep.probe, BStep.pull], r.2.1, cfg, Outcome.returned r.2.2⟩
      | none =>
        let cfg2 : InstallerCfg := { cfg with volumes := cfg.volumes ++ [dockerSockBind] }
        match env.createRes with
        | Except.error e =>
          let r := errorUpdate env.updateErr inst (some e)
          ⟨[BStep.client, BStep.probe, BStep.pull, BStep.create], r.2.1, cfg2,
            Outcome.returned r.2.2⟩
        | Except.ok cid =>
          match env.startErr cid with
          | some e =>
            let r := errorUpdate env.updateErr inst (some e)
            ⟨[BStep.client, BStep.probe, BStep.pull, BStep.create, BStep.start], r.2.1, cfg2,
              Outcome.returned r.2.2⟩
          | none =>
            let s2 : Server := { inst with state := SState.running }
            ⟨[BStep.client, BStep.probe, BStep.pull, BStep.create, BStep.start], [s2], cfg2,
              Outcome.returned (env.updateErr s2)⟩

/-! ## Orchestrator (`installer.Install`, lines 41-68) -/

/-- A server with its state set to `staging`, as done at line 50 before the
store update. -/
def stagedOf (s : Server) : Server :=
  { s with state := SState.staging }

/-- Main-thread events of one `Install` invocation, in program order:
`stage s` is a staging `Update` that the store accepted (the committed record
is `s`); `launch s` is the `go` statement spawning the worker for `s`. -/
inductive OrchEvent where
  | stage (s : Server)
  | launch (s : Server)
deriving DecidableEq, Repr

/-- Result of `Install`: the main-thread event trace and the returned error. -/
structure InstallResult where
  events : List OrchEvent
  ret : Option String
deriving DecidableEq, Repr

/-- The loop of `Install` (lines 49-66): each server is set to `staging` and
updated in the store; a failed update is returned at once (no event for this
or any later server); a successful update is immediately followed by the
worker launch for that server, before the next server is processed. -/
def installLoop (upd : Server → Option String) : List Server → InstallResult
  | [] => ⟨[], none⟩
  | s :: rest =>
    let s2 := stagedOf s
    match upd s2 with
    | some e => ⟨[], some e⟩
    | none =>
      let r := installLoop upd rest
      ⟨OrchEvent.stage s2 :: OrchEvent.launch s2 :: r.events, r.ret⟩

/-- `installer.Install` (lines 41-68): list the servers in `created` state
(returning the store error if listing fails), then run the staging/launch
loop. -/
def Install (listed : Except String (List Server)) (upd : Server → Option String) :
    InstallResult :=
  match listed with
  | Except.error e => ⟨[], some e⟩
  | Except.ok servers => installLoop upd servers

/-- The committed record of a staging event. -/
def stageProj : OrchEvent → Option Server
  | OrchEvent.stage s => some s
  | OrchEvent.launch _ => none

/-- The server of a worker-launch event. -/
def launchProj : OrchEvent → Option Server
  | OrchEvent.stage _ => none
  | OrchEvent.launch s => some s

/-- The servers whose staging update was committed, in commit order. -/
def stagedServers (r : InstallResult) : List Server :=
  r.events.filterMap stageProj

/-- The servers for which a worker was launched, in launch order. -/
def launchedServers (r : InstallResult) : List Server :=
  r.events.filterMap launchProj

/-! ## Concrete fixtures -/

/-- A server as produced by the server-creation collaborator: `created` state,
no error message. -/
def srvA : Server :=
  ⟨"1", "agent-a", "10.0.0.1", "us-east", "small", 2, SState.created, ""⟩

/-- A second freshly created server. -/
def srvB : Server :=
  ⟨"2", "agent-b", "10.0.0.2", "us-east", "small", 2, SState.created, ""⟩

/-- A base installer configuration with an empty base volume list. -/
def cfg0 : InstallerCfg :=
  ⟨"drone/agent:latest", "topsecret", [], "drone.example.com", "https",
    timeMinute, timeMinute, ⟨"", "", ""⟩⟩

/-- An environment in which every bootstrap step succeeds at once. -/
def envOk : DockerEnv :=
  ⟨none, fun _ => false, "context canceled", fun _ => true, none,
    Except.ok "cid-1", fun _ => none, fun _ => none⟩

/-- An environment whose context is already done at the first poll iteration. -/
def envCancel : DockerEnv :=
  ⟨none, fun _ => true, "context deadline exceeded", fun _ => false, none,
    Except.ok "cid-1", fun _ => none, fun _ => none⟩

/-- An environment in which the docker-client factory fails. -/
def envClientFail : DockerEnv :=
  ⟨some "cannot create docker client", fun _ => false, "context canceled", fun _ => true, none,
    Except.ok "cid-1", fun _ => none, fun _ => none⟩

/-- A store that rejects every update. -/
def updRejectAll : Server → Option String :=
  fun _ => some "store offline"

/-- A store that rejects updates for `agent-b` only. -/
def updRejectB : Server → Option String :=
  fun s => if s.name = "agent-b" then some "store unavailable" else none


/-! ## Lifecycle invariant vocabulary -/

/-- Progress rank of a lifecycle state: `created` before `staging` before the
two terminal states. -/
def rank : SState → Nat
  | SState.created => 0
  | SState.staging => 1
  | SState.running => 2
  | SState.error => 2

/-- Every failing effect of the environment carries non-empty error text
(Go `error` values have non-empty descriptions in practice; `ctx.Err()` in
particular is one of two fixed non-empty messages). -/
def NonEmptyErrors (env : DockerEnv) : Prop :=
  env.ctxErr ≠ "" ∧
  (∀ e, env.clientErr = some e → e ≠ "") ∧
  (∀ e, env.pullRes = some e → e ≠ "") ∧
  (∀ e, env.createRes = Except.error e → e ≠ "") ∧
  (∀ cid e, env.startErr cid = some e → e ≠ "")

/-- The sequence of states this core puts one server record through: the
record as listed (`created`), the committed staging record, then every record
the worker passes to `servers.Update`. -/
def writeSeq (env : DockerEnv) (fuel : Nat) (cfg : InstallerCfg) (inst : Server) : List Server :=
  inst :: stagedOf inst :: (install env fuel cfg (stagedOf inst)).writes

/-! ## Unfolding lemmas for `install` -/

theorem install_client_eq (env : DockerEnv) (fuel : Nat) (cfg : InstallerCfg) (inst : Server)
    (e : String) (h : env.clientErr = some e) :
    install env fuel cfg inst =
      ⟨[BStep.client], [{ inst with state := SState.error, error := e }], cfg,
        Outcome.returned (some e)⟩ := by
  obtain ⟨ce, cd, cerr, ao, pr, cr, se, ue⟩ := env
  dsimp only at h
  subst h
  simp [install, errorUpdate]

theorem install_canceled_eq (env : DockerEnv) (fuel : Nat) (cfg : InstallerCfg) (inst : Server)
    (j : Nat) (hce : env.clientErr = none)
    (hp : (probeLoop env.ctxDone env.attemptOk fuel 0 0).2 = ProbeResult.canceled j) :
    install env fuel cfg inst =
      ⟨[BStep.client, BStep.probe],
        [{ inst with state := SState.error, error := env.ctxErr }], cfg,
        Outcome.returned (some env.ctxErr)⟩ := by
  obtain ⟨ce, cd, cerr, ao, pr, cr, se, ue⟩ := env
  dsimp only at hce hp ⊢
  subst hce
  simp [install, errorUpdate, hp]

theorem install_pull_eq (env : DockerEnv) (fuel : Nat) (cfg : InstallerCfg) (inst : Server)
    (j : Nat) (e : String) (hce : env.clientErr = none)
    (hp : (probeLoop env.ctxDone env.attemptOk fuel 0 0).2 = ProbeResult.connected j)
    (hpull : env.pullRes = some e) :
    install env fuel cfg inst =
      ⟨[BStep.client, BStep.probe, BStep.pull],
        [{ inst with state := SState.error, error := e }], cfg,
        Outcome.returned (some e)⟩ := by
  obtain ⟨ce, cd, cerr, ao, pr, cr, se, ue⟩ := env
  dsimp only at hce hp hpull ⊢
  subst hce
  subst hpull
  simp [install, errorUpdate, hp]

theorem install_create_eq (env : DockerEnv) (fuel : Nat) (cfg : InstallerCfg) (inst : Server)
    (j : Nat) (e : String) (hce : env.clientErr = none)
    (hp : (probeLoop env.ctxDone env.attemptOk fuel 0 0).2 = ProbeResult.connected j)
    (hpull : env.pullRes = none) (hcr : env.createRes = Except.error e) :
    install env fuel cfg inst =
      ⟨[BStep.client, BStep.probe, BStep.pull, BStep.create],
        [{ inst with state := SState.error, error := e }],
        { cfg with volumes := cfg.volumes ++ [dockerSockBind] },
        Outcome.returned (some e)⟩ := by
  obtain ⟨ce, cd, cerr, ao, pr, cr, se, ue⟩ := env
  dsimp only at hce hp hpull hcr ⊢
  subst hce
  subst hpull
  subst hcr
  simp [install, errorUpdate, hp]

theorem install_start_eq (env : DockerEnv) (fuel : Nat) (cfg : InstallerCfg) (inst : Server)
    (j : Nat) (cid e : String) (hce : env.clientErr = none)
    (hp : (probeLoop env.ctxDone env.attemptOk fuel 0 0).2 = ProbeResult.connected j)
    (hpull : env.pullRes = none) (hcr : env.createRes = Except.ok cid)
    (hst : env.startErr cid = some e) :
    install env fuel cfg inst =
      ⟨[BStep.client, BStep.probe, BStep.pull, BStep.create, BStep.start],
        [{ inst with state := SState.error, error := e }],
        { cfg with volumes := cfg.volumes ++ [dockerSockBind] },
        Outcome.returned (some e)⟩ := by
  obtain ⟨ce, cd, cerr, ao, pr, cr, se, ue⟩ := env
  dsimp only at hce hp hpull hcr hst ⊢
  subst hce
  subst hpull
  subst hcr
  simp [install, errorUpdate, hp, hst]

theorem install_success_eq (env : DockerEnv) (fuel : Nat) (cfg : InstallerCfg) (inst : Server)
    (j : Nat) (cid : String) (hce : env.clientErr = none)
    (hp : (probeLoop env.ctxDone env.attemptOk fuel 0 0).2 = ProbeResult.connected j)
    (hpull : env.pullRes = none) (hcr : env.createRes = Except.ok cid)
    (hst : env.startErr cid = none) :
    install env fuel cfg inst =
      ⟨[BStep.client, BStep.probe, BStep.pull, BStep.create, BStep.start],
        [{ inst with state := SState.running }],
        { cfg with volumes := cfg.volumes ++ [dockerSockBind] },
        Outcome.returned (env.updateErr { inst with state := SState.running })⟩ := by
  obtain ⟨ce, cd, cerr, ao, pr, cr, se, ue⟩ := env
  dsimp only at hce hp hpull hcr hst ⊢
  subst hce
  subst hpull
  subst hcr
  simp [install, errorUpdate, hp, hst]

theorem install_outOfFuel_eq (env : DockerEnv) (fuel : Nat) (cfg : InstallerCfg) (inst : Server)
    (hce : env.clientErr = none)
    (hp : (probeLoop env.ctxDone env.attemptOk fuel 0 0).2 = ProbeResult.outOfFuel) :
    install env fuel cfg inst = ⟨[BStep.client, BStep.probe], [], cfg, Outcome.running⟩ := by
  obtain ⟨ce, cd, cerr, ao, pr, cr, se, ue⟩ := env
  dsimp only at hce hp ⊢
  subst hce
  simp [install, hp]

/-! ## Probe-loop lemmas -/

theorem probeLoop_delay (c a : Nat → Bool) :
    ∀ (fuel i v k d : Nat), ((probeLoop c a fuel i v).1)[k]? = some d →
      d = if k = 0 then v else timeMinute := by
  intro fuel
  induction fuel with
  | zero =>
    intro i v k d h
    simp [probeLoop] at h
  | succ n ih =>
    intro i v k d h
    cases hc : c i with
    | true => simp [probeLoop, hc] at h
    | false =>
      cases ha : a i with
      | true =>
        simp [probeLoop, hc, ha] at h
        cases k with
        | zero =>
          simp at h
          simp [h]
        | succ k2 => simp at h
      | false =>
        simp [probeLoop, hc, ha] at h
        cases k with
        | zero =>
          simp at h
          simp [h]
        | succ k2 =>
          simp at h
          have h2 := ih (i + 1) timeMinute k2 d h
          rcases Nat.eq_zero_or_pos k2 with hk | hk
          · subst hk
            simpa using h2
          · simp [Nat.pos_iff_ne_zero.mp hk] at h2
            simpa using h2

theorem probeLoop_connected_spec (c a : Nat → Bool) :
    ∀ (fuel i v j : Nat), (probeLoop c a fuel i v).2 = ProbeResult.connected j →
      a j = true ∧ c j = false ∧ i ≤ j ∧
        ∀ m, i ≤ m → m < j → c m = false ∧ a m = false := by
  intro fuel
  induction fuel with
  | zero =>
    intro i v j h
    simp [probeLoop] at h
  | succ n ih =>
    intro i v j h
    cases hc : c i with
    | true => simp [probeLoop, hc] at h
    | false =>
      cases ha : a i with
      | true =>
        simp [probeLoop, hc, ha] at h
        subst h
        exact ⟨ha, hc, Nat.le_refl i, fun m him hmi => absurd hmi (Nat.not_lt.mpr him)⟩
      | false =>
        simp [probeLoop, hc, ha] at h
        obtain ⟨ha2, hc2, hle, hall⟩ := ih (i + 1) timeMinute j h
        refine ⟨ha2, hc2, Nat.le_of_succ_le hle, ?_⟩
        intro m him hmj
        rcases Nat.eq_or_lt_of_le him with heq | hlt
        · subst heq
          exact ⟨hc, ha⟩
        · exact hall m hlt hmj

theorem probeLoop_canceled_spec (c a : Nat → Bool) :
    ∀ (fuel i v j : Nat), (probeLoop c a fuel i v).2 = ProbeResult.canceled j →
      c j = true ∧ i ≤ j ∧ ∀ m, i ≤ m → m < j → c m = false ∧ a m = false := by
  intro fuel
  induction fuel with
  | zero =>
    intro i v j h
    simp [probeLoop] at h
  | succ n ih =>
    intro i v j h
    cases hc : c i with
    | true =>
      simp [probeLoop, hc] at h
      subst h
      exact ⟨hc, Nat.le_refl i, fun m him hmi => absurd hmi (Nat.not_lt.mpr him)⟩
    | false =>
      cases ha : a i with
      | true => simp [probeLoop, hc, ha] at h
      | false =>
        simp [probeLoop, hc, ha] at h
        obtain ⟨hc2, hle, hall⟩ := ih (i + 1) timeMinute j h
        refine ⟨hc2, Nat.le_of_succ_le hle, ?_⟩
        intro m him hmj
        rcases Nat.eq_or_lt_of_le him with heq | hlt
        · subst heq
          exact ⟨hc, ha⟩
        · exact hall m hlt hmj

theorem probeLoop_no_exit (c a : Nat → Bool) (hc : ∀ j, c j = false) (ha : ∀ j, a j = false) :
    ∀ (fuel i v : Nat), (probeLoop c a fuel i v).2 = ProbeResult.outOfFuel := by
  intro fuel
  induction fuel with
  | zero =>
    intro i v
    simp [probeLoop]
  | succ n ih =>
    intro i v
    simp [probeLoop, hc i, ha i, ih (i + 1) timeMinute]

/-! ## Orchestrator loop lemmas -/

theorem installLoop_all_ok (upd : Server → Option String) :
    ∀ servers : List Server, (∀ x ∈ servers, upd (stagedOf x) = none) →
      installLoop upd servers =
        ⟨servers.flatMap fun x => [OrchEvent.stage (stagedOf x), OrchEvent.launch (stagedOf x)],
          none⟩ := by
  intro servers
  induction servers with
  | nil => intro _; rfl
  | cons s rest ih =>
    intro h
    have hs := h s (List.mem_cons_self s rest)
    have hrest := ih fun x hx => h x (List.mem_cons_of_mem s hx)
    simp [installLoop, hs, hrest]

theorem installLoop_fail_at (upd : Server → Option String) (s : Server) (e : String)
    (hs : upd (stagedOf s) = some e) :
    ∀ (pre post : List Server), (∀ x ∈ pre, upd (stagedOf x) = none) →
      installLoop upd (pre ++ s :: post) =
        ⟨pre.flatMap fun x => [OrchEvent.stage (stagedOf x), OrchEvent.launch (stagedOf x)],
          some e⟩ := by
  intro pre
  induction pre with
  | nil =>
    intro post _
    simp [installLoop, hs]
  | cons x rest ih =>
    intro post h
    have hx := h x (List.mem_cons_self x rest)
    have hrest := ih post fun y hy => h y (List.mem_cons_of_mem x hy)
    simp [installLoop, hx, hrest]

/-! ## Classification of the worker's store writes -/

theorem install_writes_cases (env : DockerEnv) (fuel : Nat) (cfg : InstallerCfg) (inst : Server) :
    (install env fuel cfg inst).writes = [] ∨
    (∃ e, (env.clientErr = some e ∨ e = env.ctxErr ∨ env.pullRes = some e ∨
        env.createRes = Except.error e ∨
        ∃ cid, env.createRes = Except.ok cid ∧ env.startErr cid = some e) ∧
      (install env fuel cfg inst).writes = [{ inst with state := SState.error, error := e }]) ∨
    (install env fuel cfg inst).writes = [{ inst with state := SState.running }] := by
  cases hce : env.clientErr with
  | some e =>
    right; left
    exact ⟨e, Or.inl rfl, by rw [install_client_eq env fuel cfg inst e hce]⟩
  | none =>
    cases hp : (probeLoop env.ctxDone env.attemptOk fuel 0 0).2 with
    | outOfFuel =>
      left
      rw [install_outOfFuel_eq env fuel cfg inst hce hp]
    | canceled j =>
      right; left
      exact ⟨env.ctxErr, Or.inr (Or.inl rfl),
        by rw [install_canceled_eq env fuel cfg inst j hce hp]⟩
    | connected j =>
      cases hpull : env.pullRes with
      | some e =>
        right; left
        exact ⟨e, Or.inr (Or.inr (Or.inl rfl)),
          by rw [install_pull_eq env fuel cfg inst j e hce hp hpull]⟩
      | none =>
        cases hcr : env.createRes with
        | error e =>
          right; left
          exact ⟨e, Or.inr (Or.inr (Or.inr (Or.inl rfl))),
            by rw [install_create_eq env fuel cfg inst j e hce hp hpull hcr]⟩
        | ok cid =>
          cases hse : env.startErr cid with
          | some e =>
            right; left
            exact ⟨e, Or.inr (Or.inr (Or.inr (Or.inr ⟨cid, rfl, hse⟩))),
              by rw [install_start_eq env fuel cfg inst j cid e hce hp hpull hcr hse]⟩
          | none =>
            right; right
            rw [install_success_eq env fuel cfg inst j cid hce hp hpull hcr hse]

/-- Projecting the staging commits out of a stage/launch pair trace. -/
theorem stagePairs_staged (l : List Server) :
    ((l.flatMap fun x => [OrchEvent.stage (stagedOf x), OrchEvent.launch (stagedOf x)]).filterMap
      stageProj) = l.map stagedOf := by
  induction l with
  | nil => rfl
  | cons x rest ih => simp [stageProj, ih]

/-- Projecting the worker launches out of a stage/launch pair trace. -/
theorem launchPairs_launched (l : List Server) :
    ((l.flatMap fun x => [OrchEvent.stage (stagedOf x), OrchEvent.launch (stagedOf x)]).filterMap
      launchProj) = l.map stagedOf := by
  induction l with
  | nil => rfl
  | cons x rest ih => simp [launchProj, ih]

/-! ## Claims -/

/-- C1 counterexample: with a batch of two servers whose second staging update
fails, `Install` does return the store error, but the worker for the first
server has already been launched — the claim's "zero bootstrap workers are
launched for the entire invocation" is false. -/
theorem C1_counterexample :
    (Install (Except.ok [srvA, srvB]) updRejectB).ret = some "store unavailable" ∧
    launchedServers (Install (Except.ok [srvA, srvB]) updRejectB) = [stagedOf srvA] ∧
    launchedServers (Install (Except.ok [srvA, srvB]) updRejectB) ≠ [] := by
  refine ⟨by decide, by decide, ?_⟩
  have h2 : launchedServers (Install (Except.ok [srvA, srvB]) updRejectB) = [stagedOf srvA] := by
    decide
  rw [h2]
  simp

/-- C1 amended: if the staging update fails for some server of the batch,
`Install` returns that store error at once; no staging update is committed and
no worker is launched for the failing server or any later server, but the
workers for the earlier servers (whose staging updates succeeded) have already
been launched — zero workers only when the very first update fails. -/
theorem C1_staging_failure_aborts_midloop (upd : Server → Option String)
    (pre : List Server) (s : Server) (post : List Server) (e : String)
    (hpre : ∀ x ∈ pre, upd (stagedOf x) = none) (hs : upd (stagedOf s) = some e) :
    (Install (Except.ok (pre ++ s :: post)) upd).ret = some e ∧
    stagedServers (Install (Except.ok (pre ++ s :: post)) upd) = pre.map stagedOf ∧
    launchedServers (Install (Except.ok (pre ++ s :: post)) upd) = pre.map stagedOf := by
  have h := installLoop_fail_at upd s e hs pre post hpre
  have hinst : Install (Except.ok (pre ++ s :: post)) upd = installLoop upd (pre ++ s :: post) :=
    rfl
  rw [hinst, h]
  exact ⟨rfl, stagePairs_staged pre, launchPairs_launched pre⟩

/-- C1 witness: the amended theorem applied to the two-server batch in which
the second staging update fails. -/
theorem C1_staging_failure_witness :
    (Install (Except.ok [srvA, srvB]) updRejectB).ret = some "store unavailable" ∧
    stagedServers (Install (Except.ok [srvA, srvB]) updRejectB) = [srvA].map stagedOf ∧
    launchedServers (Install (Except.ok [srvA, srvB]) updRejectB) = [srvA].map stagedOf := by
  have h := C1_staging_failure_aborts_midloop updRejectB [srvA] srvB [] "store unavailable"
    (by decide) (by decide)
  simpa using h

/-- C2 counterexample: with a single created server whose staging update the
store rejects, no staging transition is ever committed — the server is staged
zero times, not exactly once, refuting the unconditional claim. -/
theorem C2_counterexample :
    srvA.state = SState.created ∧
    stagedServers (Install (Except.ok [srvA]) updRejectAll) = [] ∧
    (Install (Except.ok [srvA]) updRejectAll).ret = some "store offline" := by
  decide

/-- C2 amended: when every staging update succeeds, each server of the batch
is transitioned to `staging` exactly once (the committed records are exactly
`servers.map stagedOf`, in order), and each server's staging commit
immediately precedes the launch of that server's own worker in the
main-thread order — but a worker launched for an earlier server may already
be executing bootstrap steps before later servers' staging updates, so the
staging of the whole batch is not ordered before all worker activity. -/
theorem C2_staged_once_before_own_launch (upd : Server → Option String)
    (servers : List Server) (h : ∀ x ∈ servers, upd (stagedOf x) = none) :
    (Install (Except.ok servers) upd).events =
      (servers.flatMap fun x => [OrchEvent.stage (stagedOf x), OrchEvent.launch (stagedOf x)]) ∧
    stagedServers (Install (Except.ok servers) upd) = servers.map stagedOf ∧
    launchedServers (Install (Except.ok servers) upd) = servers.map stagedOf ∧
    (Install (Except.ok servers) upd).ret = none := by
  have hloop := installLoop_all_ok upd servers h
  have hinst : Install (Except.ok servers) upd = installLoop upd servers := rfl
  rw [hinst, hloop]
  exact ⟨rfl, stagePairs_staged servers, launchPairs_launched servers, rfl⟩

/-- C2 witness: the amended theorem applied to a two-server batch whose
staging updates all succeed. -/
theorem C2_witness :
    (Install (Except.ok [srvA, srvB]) (fun _ => none)).events =
      [OrchEvent.stage (stagedOf srvA), OrchEvent.launch (stagedOf srvA),
        OrchEvent.stage (stagedOf srvB), OrchEvent.launch (stagedOf srvB)] ∧
    stagedServers (Install (Except.ok [srvA, srvB]) (fun _ => none)) =
      [stagedOf srvA, stagedOf srvB] ∧
    launchedServers (Install (Except.ok [srvA, srvB]) (fun _ => none)) =
      [stagedOf srvA, stagedOf srvB] ∧
    (Install (Except.ok [srvA, srvB]) (fun _ => none)).ret = none := by
  have h := C2_staged_once_before_own_launch (fun _ => none) [srvA, srvB] (by decide)
  simpa using h

/-- C3 counterexample: a bootstrap run that reaches the container-create step
appends the docker control-socket bind to the installer's volume list
(line 134), so the configuration's base volume bind list is not identical
before and after the call. -/
theorem C3_counterexample :
    (install envOk 1 cfg0 (stagedOf srvA)).cfgAfter.volumes ≠ cfg0.volumes ∧
    (install envOk 1 cfg0 (stagedOf srvA)).cfgAfter.volumes =
      cfg0.volumes ++ [dockerSockBind] := by
  constructor
  · intro h
    have h2 : (install envOk 1 cfg0 (stagedOf srvA)).cfgAfter.volumes = [dockerSockBind] := by
      decide
    rw [h2] at h
    have : (cfg0.volumes : List String) = [] := by decide
    rw [this] at h
    simp at h
  · decide

/-- C3 amended: every configuration field other than the volume bind list is
identical before and after any bootstrap run; the volume list itself is either
unchanged (runs that fail before the image pull completes) or extended by
exactly the mandatory docker control-socket bind (runs that reach line 134). -/
theorem C3_config_frame (env : DockerEnv) (fuel : Nat) (cfg : InstallerCfg) (inst : Server) :
    (install env fuel cfg inst).cfgAfter.image = cfg.image ∧
    (install env fuel cfg inst).cfgAfter.secret = cfg.secret ∧
    (install env fuel cfg inst).cfgAfter.host = cfg.host ∧
    (install env fuel cfg inst).cfgAfter.proto = cfg.proto ∧
    (install env fuel cfg inst).cfgAfter.keepaliveTime = cfg.keepaliveTime ∧
    (install env fuel cfg inst).cfgAfter.keepaliveTimeout = cfg.keepaliveTimeout ∧
    (install env fuel cfg inst).cfgAfter.runner = cfg.runner ∧
    ((install env fuel cfg inst).cfgAfter.volumes = cfg.volumes ∨
      (install env fuel cfg inst).cfgAfter.volumes = cfg.volumes ++ [dockerSockBind]) := by
  cases hce : env.clientErr with
  | some e => simp [install_client_eq env fuel cfg inst e hce]
  | none =>
    cases hp : (probeLoop env.ctxDone env.attemptOk fuel 0 0).2 with
    | outOfFuel => simp [install_outOfFuel_eq env fuel cfg inst hce hp]
    | canceled j => simp [install_canceled_eq env fuel cfg inst j hce hp]
    | connected j =>
      cases hpull : env.pullRes with
      | some e => simp [install_pull_eq env fuel cfg inst j e hce hp hpull]
      | none =>
        cases hcr : env.createRes with
        | error e => simp [install_create_eq env fuel cfg inst j e hce hp hpull hcr]
        | ok cid =>
          cases hse : env.startErr cid with
          | some e => simp [install_start_eq env fuel cfg inst j cid e hce hp hpull hcr hse]
          | none => simp [install_success_eq env fuel cfg inst j cid hce hp hpull hcr hse]

/-- C4: the connectivity probe's first attempt waits zero; every later attempt
waits exactly one minute; a successful call ends the loop and an erroring call
means nothing but retry (every iteration before the exit point had the call
fail and the context live); with no success and no cancellation the loop never
exits, for any iteration bound; and a cancellation exit makes the worker
report the context's error through the error-transition path. -/
theorem C4_probe_protocol (c a : Nat → Bool) (fuel : Nat) :
    (∀ k d, ((probeLoop c a fuel 0 0).1)[k]? = some d →
      d = if k = 0 then 0 else timeMinute) ∧
    (∀ j, (probeLoop c a fuel 0 0).2 = ProbeResult.connected j →
      a j = true ∧ c j = false ∧ ∀ m, m < j → c m = false ∧ a m = false) ∧
    (∀ j, (probeLoop c a fuel 0 0).2 = ProbeResult.canceled j →
      c j = true ∧ ∀ m, m < j → c m = false ∧ a m = false) ∧
    ((∀ j, c j = false) → (∀ j, a j = false) →
      (probeLoop c a fuel 0 0).2 = ProbeResult.outOfFuel) ∧
    (∀ (env : DockerEnv) (cfg : InstallerCfg) (inst : Server) (j : Nat),
      env.clientErr = none →
      (probeLoop env.ctxDone env.attemptOk fuel 0 0).2 = ProbeResult.canceled j →
      install env fuel cfg inst =
        ⟨[BStep.client, BStep.probe],
          [{ inst with state := SState.error, error := env.ctxErr }], cfg,
          Outcome.returned (some env.ctxErr)⟩) := by
  refine ⟨?_, ?_, ?_, ?_, ?_⟩
  · intro k d h
    exact probeLoop_delay c a fuel 0 0 k d h
  · intro j h
    obtain ⟨ha, hc, _, hall⟩ := probeLoop_connected_spec c a fuel 0 0 j h
    exact ⟨ha, hc, fun m hm => hall m (Nat.zero_le m) hm⟩
  · intro j h
    obtain ⟨hc, _, hall⟩ := probeLoop_canceled_spec c a fuel 0 0 j h
    exact ⟨hc, fun m hm => hall m (Nat.zero_le m) hm⟩
  · intro hc ha
    exact probeLoop_no_exit c a hc ha fuel 0 0
  · intro env cfg inst j hce hp
    exact install_canceled_eq env fuel cfg inst j hce hp

/-- C4 witness: the probe characterisations applied at concrete inputs — an
immediately successful probe, and a worker whose context is done at the first
iteration and which records the context error. -/
theorem C4_probe_witness :
    ((fun _ : Nat => true) 0 = true ∧ (fun _ : Nat => false) 0 = false ∧
      ∀ m, m < 0 → (fun _ : Nat => false) m = false ∧ (fun _ : Nat => true) m = false) ∧
    install envCancel 1 cfg0 (stagedOf srvA) =
      ⟨[BStep.client, BStep.probe],
        [{ stagedOf srvA with state := SState.error, error := envCancel.ctxErr }], cfg0,
        Outcome.returned (some envCancel.ctxErr)⟩ := by
  constructor
  · exact (C4_probe_protocol (fun _ => false) (fun _ => true) 1).2.1 0 (by decide)
  · exact (C4_probe_protocol (fun _ => false) (fun _ => true) 1).2.2.2.2 envCancel cfg0
      (stagedOf srvA) 0 rfl (by decide)

/-- C5: whenever a bootstrap step fails — docker-client construction, the
probe being cancelled, image pull, container create, container start — no
later bootstrap step begins, the single store write sets the record to the
`error` state with the error-message field equal, character for character, to
the failing error's text, and that error is returned. -/
theorem C5_failure_routes_to_error (env : DockerEnv) (fuel : Nat) (cfg : InstallerCfg)
    (inst : Server) :
    (∀ e, env.clientErr = some e →
      install env fuel cfg inst =
        ⟨[BStep.client], [{ inst with state := SState.error, error := e }], cfg,
          Outcome.returned (some e)⟩) ∧
    (∀ j, env.clientErr = none →
      (probeLoop env.ctxDone env.attemptOk fuel 0 0).2 = ProbeResult.canceled j →
      install env fuel cfg inst =
        ⟨[BStep.client, BStep.probe],
          [{ inst with state := SState.error, error := env.ctxErr }], cfg,
          Outcome.returned (some env.ctxErr)⟩) ∧
    (∀ j e, env.clientErr = none →
      (probeLoop env.ctxDone env.attemptOk fuel 0 0).2 = ProbeResult.connected j →
      env.pullRes = some e →
      install env fuel cfg inst =
        ⟨[BStep.client, BStep.probe, BStep.pull],
          [{ inst with state := SState.error, error := e }], cfg,
          Outcome.returned (some e)⟩) ∧
    (∀ j e, env.clientErr = none →
      (probeLoop env.ctxDone env.attemptOk fuel 0 0).2 = ProbeResult.connected j →
      env.pullRes = none → env.createRes = Except.error e →
      install env fuel cfg inst =
        ⟨[BStep.client, BStep.probe, BStep.pull, BStep.create],
          [{ inst with state := SState.error, error := e }],
          { cfg with volumes := cfg.volumes ++ [dockerSockBind] },
          Outcome.returned (some e)⟩) ∧
    (∀ j cid e, env.clientErr = none →
      (probeLoop env.ctxDone env.attemptOk fuel 0 0).2 = ProbeResult.connected j →
      env.pullRes = none → env.createRes = Except.ok cid → env.startErr cid = some e →
      install env fuel cfg inst =
        ⟨[BStep.client, BStep.probe, BStep.pull, BStep.create, BStep.start],
          [{ inst with state := SState.error, error := e }],
          { cfg with volumes := cfg.volumes ++ [dockerSockBind] },
          Outcome.returned (some e)⟩) := by
  refine ⟨?_, ?_, ?_, ?_, ?_⟩
  · intro e h
    exact install_client_eq env fuel cfg inst e h
  · intro j hce hp
    exact install_canceled_eq env fuel cfg inst j hce hp
  · intro j e hce hp hpull
    exact install_pull_eq env fuel cfg inst j e hce hp hpull
  · intro j e hce hp hpull hcr
    exact install_create_eq env fuel cfg inst j e hce hp hpull hcr
  · intro j cid e hce hp hpull hcr hse
    exact install_start_eq env fuel cfg inst j cid e hce hp hpull hcr hse

/-- C5 witness: the client-construction failure case at a concrete
environment: only the client step runs, the record reaches `error` with the
verbatim message, and the error is returned. -/
theorem C5_failure_witness :
    install envClientFail 1 cfg0 (stagedOf srvA) =
      ⟨[BStep.client],
        [{ stagedOf srvA with state := SState.error, error := "cannot create docker client" }],
        cfg0, Outcome.returned (some "cannot create docker client")⟩ :=
  (C5_failure_routes_to_error envClientFail 1 cfg0 (stagedOf srvA)).1
    "cannot create docker client" rfl

/-- C6: a fully successful bootstrap (probe connects, pull, create and start
all succeed) runs all five steps, performs exactly one write transitioning the
record to `running`, and never touches the error-message field (the written
record's message equals the incoming one, hence stays empty when it began
empty). -/
theorem C6_success_running (env : DockerEnv) (fuel : Nat) (cfg : InstallerCfg) (inst : Server)
    (j : Nat) (cid : String) (hce : env.clientErr = none)
    (hp : (probeLoop env.ctxDone env.attemptOk fuel 0 0).2 = ProbeResult.connected j)
    (hpull : env.pullRes = none) (hcr : env.createRes = Except.ok cid)
    (hse : env.startErr cid = none) :
    install env fuel cfg inst =
      ⟨[BStep.client, BStep.probe, BStep.pull, BStep.create, BStep.start],
        [{ inst with state := SState.running }],
        { cfg with volumes := cfg.volumes ++ [dockerSockBind] },
        Outcome.returned (env.updateErr { inst with state := SState.running })⟩ ∧
    ({ inst with state := SState.running } : Server).state = SState.running ∧
    ({ inst with state := SState.running } : Server).error = inst.error := by
  exact ⟨install_success_eq env fuel cfg inst j cid hce hp hpull hcr hse, rfl, rfl⟩

/-- C6 witness: the all-success environment: the record written is the staged
server moved to `running` with its (empty) error message untouched. -/
theorem C6_success_witness :
    install envOk 1 cfg0 (stagedOf srvA) =
      ⟨[BStep.client, BStep.probe, BStep.pull, BStep.create, BStep.start],
        [{ stagedOf srvA with state := SState.running }],
        { cfg0 with volumes := cfg0.volumes ++ [dockerSockBind] },
        Outcome.returned none⟩ ∧
    ({ stagedOf srvA with state := SState.running } : Server).error = "" :=
  ⟨(C6_success_running envOk 1 cfg0 (stagedOf srvA) 0 "cid-1" rfl (by decide) rfl rfl rfl).1,
    rfl⟩

/-- C7 counterexample: on `["a:b", "a:b:ro", "C:\x:C:\y"]` the bind-set is not
`{"b", "C:\y"}`: the pattern's drive-letter tolerance makes the single-letter
source `a:` of `"a:b:ro"` parse as a drive prefix of the first component, so
that entry's target component is `"ro"`, which is a member of the result. -/
theorem C7_counterexample :
    ¬ (∀ x, x ∈ toVol ["a:b", "a:b:ro", "C:\\x:C:\\y"] ↔ (x = "b" ∨ x = "C:\\y")) := by
  intro h
  have h2 := (h "ro").mp (by decide)
  rcases h2 with h2 | h2
  · exact absurd h2 (by decide)
  · exact absurd h2 (by decide)

/-- C7 amended: on that input the bind-set function returns exactly the target
set `{"b", "ro", "C:\y"}`: `"a:b"` contributes `"b"`; in `"a:b:ro"` the
single-letter source is consumed as a drive-letter prefix and the target
component is `"ro"` (so no duplicate-target collapse arises between the first
two entries); the `C:` prefixes of the third entry are not treated as
separators and it contributes `"C:\y"`. -/
theorem C7_bind_set_value :
    toVol ["a:b", "a:b:ro", "C:\\x:C:\\y"] = ["b", "ro", "C:\\y"] ∧
    ∀ x, x ∈ toVol ["a:b", "a:b:ro", "C:\\x:C:\\y"] ↔
      (x = "b" ∨ x = "ro" ∨ x = "C:\\y") := by
  have h : toVol ["a:b", "a:b:ro", "C:\\x:C:\\y"] = ["b", "ro", "C:\\y"] := by decide
  refine ⟨h, ?_⟩
  intro x
  rw [h]
  simp

/-- C8: the bind-set function is total and never fails outward: every input
string splits with a nil error (the regex-compilation error branch being
unreachable for the constant pattern), an entry with fewer than two non-empty
components — such as the separator-free `"noseparator"`, which splits to a
single component — is silently skipped, and the remaining valid entries still
contribute their targets. -/
theorem C8_bind_set_total :
    (∀ s, ∃ l, splitVolumeParts s = Except.ok l) ∧
    splitVolumeParts "noseparator" = Except.ok ["noseparator"] ∧
    (∀ rest, toVol ("noseparator" :: rest) = toVol rest) ∧
    toVol ["noseparator", "a:b"] = ["b"] := by
  refine ⟨?_, rfl, ?_, by decide⟩
  · intro s
    simp only [splitVolumeParts]
    cases hm : matchGroup1 s.data with
    | none => exact ⟨_, rfl⟩
    | some p =>
      obtain ⟨g1, rest⟩ := p
      exact ⟨_, rfl⟩
  · intro rest
    rfl

/-- C9: over every sequence of state transitions this core performs on one
server record (the staging commit, then the worker's writes), the lifecycle
rank strictly increases — a record that left `created` is never set back to
`created`, one that left `staging` never back to `created` or `staging` —
every record of the sequence holds exactly one of the four lifecycle states,
and (for a record entering with an empty message, under non-empty failing
error texts) the error-message field is non-empty iff the state is `error`. -/
theorem C9_lifecycle_invariants (env : DockerEnv) (fuel : Nat) (cfg : InstallerCfg)
    (inst : Server) (hst : inst.state = SState.created) (herr : inst.error = "")
    (hne : NonEmptyErrors env) :
    List.Chain' (fun x y : Server => rank x.state < rank y.state) (writeSeq env fuel cfg inst) ∧
    (∀ w ∈ writeSeq env fuel cfg inst,
      w.state = SState.created ∨ w.state = SState.staging ∨ w.state = SState.running ∨
        w.state = SState.error) ∧
    (∀ w ∈ writeSeq env fuel cfg inst, (w.error ≠ "" ↔ w.state = SState.error)) := by
  obtain ⟨hctx, hcl, hpl, hcrr, hsee⟩ := hne
  have hbase : rank inst.state < rank (stagedOf inst).state := by
    rw [hst]
    exact Nat.zero_lt_one
  unfold writeSeq
  rcases install_writes_cases env fuel cfg (stagedOf inst) with hw | ⟨e, hsrc, hw⟩ | hw
  · rw [hw]
    refine ⟨List.chain'_pair.mpr hbase, ?_, ?_⟩
    · intro w hw2
      simp only [List.mem_cons, List.not_mem_nil, or_false] at hw2
      rcases hw2 with rfl | rfl
      · exact Or.inl hst
      · exact Or.inr (Or.inl rfl)
    · intro w hw2
      simp only [List.mem_cons, List.not_mem_nil, or_false] at hw2
      rcases hw2 with rfl | rfl
      · constructor
        · intro h
          exact absurd herr h
        · intro h
          rw [hst] at h
          exact SState.noConfusion h
      · constructor
        · intro h
          exact absurd herr h
        · intro h
          exact SState.noConfusion h
  · have he : e ≠ "" := by
      rcases hsrc with h | h | h | h | ⟨cid, hok, hs2⟩
      · exact hcl e h
      · rw [h]
        exact hctx
      · exact hpl e h
      · exact hcrr e h
      · exact hsee cid e hs2
    rw [hw]
    refine ⟨List.chain'_cons.mpr ⟨hbase, List.chain'_pair.mpr Nat.one_lt_two⟩, ?_, ?_⟩
    · intro w hw2
      simp only [List.mem_cons, List.not_mem_nil, or_false] at hw2
      rcases hw2 with rfl | rfl | rfl
      · exact Or.inl hst
      · exact Or.inr (Or.inl rfl)
      · exact Or.inr (Or.inr (Or.inr rfl))
    · intro w hw2
      simp only [List.mem_cons, List.not_mem_nil, or_false] at hw2
      rcases hw2 with rfl | rfl | rfl
      · constructor
        · intro h
          exact absurd herr h
        · intro h
          rw [hst] at h
          exact SState.noConfusion h
      · constructor
        · intro h
          exact absurd herr h
        · intro h
          exact SState.noConfusion h
      · exact ⟨fun _ => rfl, fun _ => he⟩
  · rw [hw]
    refine ⟨List.chain'_cons.mpr ⟨hbase, List.chain'_pair.mpr Nat.one_lt_two⟩, ?_, ?_⟩
    · intro w hw2
      simp only [List.mem_cons, List.not_mem_nil, or_false] at hw2
      rcases hw2 with rfl | rfl | rfl
      · exact Or.inl hst
      · exact Or.inr (Or.inl rfl)
      · exact Or.inr (Or.inr (Or.inl rfl))
    · intro w hw2
      simp only [List.mem_cons, List.not_mem_nil, or_false] at hw2
      rcases hw2 with rfl | rfl | rfl
      · constructor
        · intro h
          exact absurd herr h
        · intro h
          rw [hst] at h
          exact SState.noConfusion h
      · constructor
        · intro h
          exact absurd herr h
        · intro h
          exact SState.noConfusion h
      · constructor
        · intro h
          exact absurd herr h
        · intro h
          exact SState.noConfusion h

/-- C9 witness: the lifecycle invariants at the all-success environment and a
freshly created server. -/
theorem C9_lifecycle_witness :
    List.Chain' (fun x y : Server => rank x.state < rank y.state) (writeSeq envOk 1 cfg0 srvA) ∧
    (∀ w ∈ writeSeq envOk 1 cfg0 srvA,
      w.state = SState.created ∨ w.state = SState.staging ∨ w.state = SState.running ∨
        w.state = SState.error) ∧
    (∀ w ∈ writeSeq envOk 1 cfg0 srvA, (w.error ≠ "" ↔ w.state = SState.error)) :=
  C9_lifecycle_invariants envOk 1 cfg0 srvA rfl rfl
    ⟨by decide, fun e h => Option.noConfusion h, fun e h => Option.noConfusion h,
      fun e h => Except.noConfusion h, fun cid e h => Option.noConfusion h⟩

/-- C10: the error-transition routine returns exactly the error it was given:
on a nil error it performs no store write, leaves the record unmodified and
returns nil; on a non-nil error it returns that same error — for every store
behaviour `upd`, including one whose update fails, since the update's result
is discarded. -/
theorem C10_errorUpdate_contract (upd : Server → Option String) (server : Server) (m : String) :
    errorUpdate upd server none = (server, [], none) ∧
    errorUpdate upd server (some m) =
      ({ server with state := SState.error, error := m },
        [{ server with state := SState.error, error := m }], some m) :=
  ⟨rfl, rfl⟩
